import Mathlib

/-!
Shallow embedding of the workflow orchestrator in src/main.py.

Modelling conventions:
* Python dicts with string keys are association lists (insertion-ordered,
  keys unique in every dict the program builds); assignment replaces the
  first matching key in place, or appends a fresh key at the end, exactly
  like CPython dict insertion order semantics.
* Python float literals in the program are exact decimal fractions, so a
  float is a pair of an integer numerator and a power-of-ten exponent
  (PyFloat).  All arithmetic the program performs on them (multiplication
  by an int, int() truncation toward zero, subtraction, rounding) is exact
  on this representation.
* time.time() is an abstract clock: a function from a tick counter to a
  PyFloat.  Step.run consumes two ticks, one when the Trace is constructed
  and one when it is closed.
* datetime.utcnow().strftime is an unspecified string parameter (today).
* A step function in the source receives the Context but only ever reads
  its data mapping via ctx.get; the embedding therefore types it as a pure
  reader of the data dict that either returns a result mapping, returns
  Python None (Option.none), or raises an error carried as its str() form.
-/

/-- Exact decimal fraction num / 10 ^ exp: the model of the Python floats
occurring in the program. -/
structure PyFloat where
  num : Int
  exp : Nat
  deriving DecidableEq, Repr

/-- Real value of a PyFloat. -/
def PyFloat.toRat (x : PyFloat) : Rat := (x.num : Rat) / (10 : Rat) ^ x.exp

/-- Multiplication of a Python float by an int (used for the literal
multiplications by 100 and 1000 in the source). -/
def PyFloat.mulInt (x : PyFloat) (m : Int) : PyFloat := ⟨x.num * m, x.exp⟩

/-- Exact subtraction of Python floats (finished_at - started_at). -/
def PyFloat.sub (x y : PyFloat) : PyFloat :=
  ⟨x.num * (10 : Int) ^ y.exp - y.num * (10 : Int) ^ x.exp, x.exp + y.exp⟩

/-- Python int(x): truncation toward zero.  Int.tdiv truncates toward zero
and the denominator 10 ^ exp is positive. -/
def PyFloat.trunc (x : PyFloat) : Int := Int.tdiv x.num ((10 : Int) ^ x.exp)

/-- Python round(x, 2): round to 2 decimal places, ties to even (CPython
banker rounding), exact on the decimal representation. -/
def PyFloat.round2 (x : PyFloat) : PyFloat :=
  let p : Int := (10 : Int) ^ x.exp
  let a : Int := x.num * 100
  let f : Int := Int.ediv a p
  let r : Int := a - f * p
  let n : Int :=
    if 2 * r < p then f
    else if p < 2 * r then f + 1
    else if f % 2 = 0 then f else f + 1
  ⟨n, 2⟩

/-- CPython str() of a float, rendered from the exact decimal form.  Only
reachable through str-formatting of non-string values in the email body,
which no claim exercises; trailing-zero stripping is not reproduced. -/
def PyFloat.render (x : PyFloat) : String :=
  let p : Nat := 10 ^ x.exp
  let a : Nat := x.num.natAbs
  let sign : String := if x.num < 0 then "-" else ""
  if x.exp = 0 then sign ++ toString a ++ ".0"
  else
    let fs : String := toString (a % p)
    let pad : String := String.mk (List.replicate (x.exp - fs.length) (Char.ofNat 48))
    sign ++ toString (a / p) ++ "." ++ pad ++ fs

/-- Python values stored in Context.data: None, strings, ints, floats,
lists and dicts cover every value the program constructs. -/
inductive Value where
  | none
  | str (s : String)
  | int (n : Int)
  | float (x : PyFloat)
  | list (xs : List Value)
  | dict (m : List (String × Value))

/-- A Python dict with string keys, as the program uses everywhere. -/
def Dict : Type := List (String × Value)

/-- Python d[k] lookup result (first occurrence; dicts built by the program
never hold a key twice). -/
def Dict.get : Dict → String → Option Value
  | [], _ => Option.none
  | (k2, v) :: rest, k => if k2 = k then some v else Dict.get rest k

/-- Python d.get(k, default). -/
def Dict.getD (d : Dict) (k : String) (dflt : Value) : Value :=
  (Dict.get d k).getD dflt

/-- Python d[k] = v: overwrite in place when the key exists, append
otherwise (CPython insertion-order semantics). -/
def Dict.set : Dict → String → Value → Dict
  | [], k, v => [(k, v)]
  | (k2, w) :: rest, k, v =>
      if k2 = k then (k, v) :: rest else (k2, w) :: Dict.set rest k v

/-- Value of the last binding of a key in a dict viewed as a sequence of
assignments (used to state last-write-wins facts about step outputs). -/
def Dict.getLast : Dict → String → Option Value
  | [], _ => Option.none
  | (k2, v) :: rest, k =>
      match Dict.getLast rest k with
      | some w => some w
      | Option.none => if k2 = k then some v else Option.none

/-- Python m.get(k, default) on an arbitrary value: AttributeError unless
the value is a dict. -/
def Value.mapGet : Value → String → Value → Except String Value
  | .dict d, k, dflt => .ok (Dict.getD d k dflt)
  | _, k, _ => .error ("AttributeError: object has no attribute get: " ++ k)

/-- Python p[k] subscription on an arbitrary value: KeyError when the key
is missing, TypeError unless the value is a dict. -/
def Value.item : Value → String → Except String Value
  | .dict d, k =>
      match Dict.get d k with
      | some v => .ok v
      | Option.none => .error ("KeyError: " ++ k)
  | _, k => .error ("TypeError: value is not subscriptable: " ++ k)

/-- Python iteration over a value.  The program only ever iterates lists;
other iterables (strings, dicts) cannot flow into its loops, and the
embedding raises TypeError for them like for genuinely non-iterable
values. -/
def Value.toListE : Value → Except String (List Value)
  | .list xs => .ok xs
  | _ => .error "TypeError: value is not iterable"

/-- Python str() as used by f-string interpolation.  Exact for None,
strings and ints, the only cases the program reaches; container rendering
omits the quoting of CPython repr and is not exercised by any claim. -/
def pyStr : Value → String
  | .none => "None"
  | .str s => s
  | .int n => toString n
  | .float x => PyFloat.render x
  | .list _ => "[...]"
  | .dict _ => "..."

/-- Python int(v) on a dynamic value: exact for ints and floats, TypeError
otherwise. -/
def Value.toPyInt : Value → Except String Int
  | .int n => .ok n
  | .float x => .ok (PyFloat.trunc x)
  | _ => .error "TypeError: int() argument must be a number"

/-- Python v * m for an int literal m, as in conv_delta * 100. -/
def Value.mulInt : Value → Int → Except String Value
  | .int n, m => .ok (.int (n * m))
  | .float x, m => .ok (.float (PyFloat.mulInt x m))
  | _, _ => .error "TypeError: unsupported operand type for mul"

/-- Trace from src/main.py: one step execution record.  finished_at
defaults to 0.0 until close() runs. -/
structure Trace where
  step : String
  input : Dict
  output : Dict
  started_at : PyFloat
  finished_at : PyFloat

/-- Trace.close: stamp the finish time. -/
def Trace.close (tr : Trace) (t : PyFloat) : Trace := { tr with finished_at := t }

/-- Trace.as_dict from src/main.py, latency computed exactly as in the
source: round((finished_at - started_at) * 1000, 2). -/
def Trace.as_dict (tr : Trace) : Dict :=
  [("step", .str tr.step),
   ("started_at", .float tr.started_at),
   ("finished_at", .float tr.finished_at),
   ("latency_ms", .float (PyFloat.round2 (PyFloat.mulInt (PyFloat.sub tr.finished_at tr.started_at) 1000))),
   ("input", .dict tr.input),
   ("output", .dict tr.output)]

/-- Context from src/main.py: shared data mapping plus the ordered trace
list. -/
structure Context where
  data : Dict
  traces : List Trace

/-- Context.add_trace. -/
def Context.add_trace (c : Context) (tr : Trace) : Context :=
  { c with traces := c.traces ++ [tr] }

/-- Context.get(key, default): total, hence it never raises. -/
def Context.get (c : Context) (k : String) (dflt : Value) : Value :=
  Dict.getD c.data k dflt

/-- Context.set(key, value): unconditional overwrite. -/
def Context.set (c : Context) (k : String) (v : Value) : Context :=
  { c with data := Dict.set c.data k v }

/-- A step function: reads the data mapping, and either returns a result
dict, returns Python None (mapped to the empty dict by the "or" in the
source), or raises an error carried as its stringified form. -/
def StepFn : Type := Dict → Except String (Option Dict)

/-- Step from src/main.py: a name paired with a function. -/
structure Step where
  name : String
  fn : StepFn

/-- Running state threaded through a run: the shared Context plus the tick
counter feeding the abstract clock. -/
structure RunState where
  ctx : Context
  tick : Nat

/-- Step.run from src/main.py.  The Trace is created first with a snapshot
of ctx.data; on success the output is merged into the context key by key
via ctx.set; on an error the output becomes the error dict and the error
propagates; on both paths the trace is closed and appended (the finally
block). -/
def Step.run (s : Step) (clock : Nat → PyFloat) (st : RunState) : RunState × Option String :=
  let tr0 : Trace := ⟨s.name, st.ctx.data, [], clock st.tick, ⟨0, 0⟩⟩
  match s.fn st.ctx.data with
  | .ok res =>
      let output : Dict := res.getD []
      let ctx1 : Context := output.foldl (fun c kv => Context.set c kv.1 kv.2) st.ctx
      let tr1 : Trace := Trace.close { tr0 with output := output } (clock (st.tick + 1))
      (⟨Context.add_trace ctx1 tr1, st.tick + 2⟩, Option.none)
  | .error e =>
      let tr1 : Trace := Trace.close { tr0 with output := [("error", Value.str e)] } (clock (st.tick + 1))
      (⟨Context.add_trace st.ctx tr1, st.tick + 2⟩, some e)

/-- The loop body of Orchestrator.run: run the steps in order, stopping
with the error of the first step that raises. -/
def runSteps (clock : Nat → PyFloat) : List Step → RunState → RunState × Option String
  | [], st => (st, Option.none)
  | s :: rest, st =>
      match Step.run s clock st with
      | (st1, Option.none) => runSteps clock rest st1
      | (st1, some e) => (st1, some e)

/-- Orchestrator from src/main.py: a fixed ordered list of steps. -/
structure Orchestrator where
  steps : List Step

/-- Orchestrator.run: execute every step in order against one shared
context; the first component is the final state (the Python version
returns the same mutated ctx, which the caller also still holds when an
error propagates), the second the propagated error if any. -/
def Orchestrator.run (o : Orchestrator) (clock : Nat → PyFloat) (st : RunState) : RunState × Option String :=
  runSteps clock o.steps st

/-- The sample dict returned by mock_pull_marketing_data. -/
def sampleMetrics : Value :=
  .dict
    [("week_over_week", .dict [("conv_rate", .float ⟨14, 2⟩), ("traffic", .float ⟨7, 2⟩)]),
     ("top_channels",
       .list
         [.dict [("name", .str "Organic"), ("conv", .float ⟨36, 3⟩)],
          .dict [("name", .str "LinkedIn"), ("conv", .float ⟨28, 3⟩)]]),
     ("notes", .str "Healthcare content gained traction among Pharma executives.")]

/-- mock_pull_marketing_data from src/main.py. -/
def mock_pull_marketing_data : StepFn := fun _ =>
  .ok (some [("raw_metrics", sampleMetrics)])

/-- The three hardcoded recommendation strings of mock_summarize_metrics. -/
def recommendationStrings : List String :=
  ["Increase LinkedIn outreach toward Pharma decision-makers.",
   "Repurpose top organic posts into short-form LinkedIn content.",
   "Test two creative variations focused on clinical impact."]

/-- mock_summarize_metrics from src/main.py: reads
raw_metrics.week_over_week.conv_rate (with dict defaults down the chain)
and formats int(conv_delta * 100) into the summary sentence. -/
def mock_summarize_metrics : StepFn := fun data => do
  let m : Value := Dict.getD data "raw_metrics" (.dict [])
  let wow ← Value.mapGet m "week_over_week" (.dict [])
  let conv ← Value.mapGet wow "conv_rate" (.int 0)
  let prod ← Value.mulInt conv 100
  let pct ← Value.toPyInt prod
  let summary : String :=
    "Conversion rate rose " ++ toString pct ++
    "% week-over-week. Organic and LinkedIn remain leading channels. " ++
    "Healthcare content continues to perform strongly."
  .ok (some
    [("summary", .str summary),
     ("key_insight", .str "Organic content is driving higher-quality engagement."),
     ("recommendations", .list (recommendationStrings.map Value.str))])

/-- mock_build_action_plan from src/main.py: enumerate the recommendations
into id/task/owner/due records. -/
def mock_build_action_plan : StepFn := fun data => do
  let recsV : Value := Dict.getD data "recommendations" (.list [])
  let recs ← Value.toListE recsV
  let plan : List Value := recs.enum.map (fun ir =>
    .dict [("id", .int (ir.1 + 1)), ("task", ir.2),
           ("owner", .str "marketing"), ("due", .str "EOW")])
  .ok (some [("action_plan", .list plan)])

/-- mock_send_email from src/main.py; today stands for
datetime.utcnow().strftime of the current date. -/
def mock_send_email (today : String) : StepFn := fun data => do
  let planV : Value := Dict.getD data "action_plan" (.list [])
  let plan ← Value.toListE planV
  let lines ← plan.mapM (fun p => do
    let task ← Value.item p "task"
    let owner ← Value.item p "owner"
    let due ← Value.item p "due"
    pure ("- " ++ pyStr task ++ " (owner: " ++ pyStr owner ++ ", due: " ++ pyStr due ++ ")"))
  let body : String :=
    "Summary: " ++ pyStr (Dict.getD data "summary" .none) ++ "\n\n" ++
    "Key Insight: " ++ pyStr (Dict.getD data "key_insight" .none) ++ "\n\n" ++
    "Action Plan:\n" ++ String.intercalate "\n" lines
  let payload : Dict :=
    [("to", .list [.str "growth-leads@example.com"]),
     ("subject", .str ("[Daily Summary] " ++ today)),
     ("body", .str body)]
  .ok (some [("email_status", .str "sent"), ("email_payload", .dict payload)])

/-- build_default_workflow from src/main.py. -/
def build_default_workflow (today : String) : Orchestrator :=
  ⟨[⟨"pull_data", mock_pull_marketing_data⟩,
    ⟨"summarize_metrics", mock_summarize_metrics⟩,
    ⟨"build_action_plan", mock_build_action_plan⟩,
    ⟨"send_email", mock_send_email today⟩]⟩

/-- Merging a result dict into a data dict key by key, the meaning of the
for-loop in Step.run. -/
def mergeOutput (d out : Dict) : Dict :=
  out.foldl (fun acc kv => Dict.set acc kv.1 kv.2) d

/-- The data mapping reconstructed from an initial mapping and the outputs
of a list of traces, in order. -/
def replayData (d0 : Dict) (trs : List Trace) : Dict :=
  trs.foldl (fun d tr => mergeOutput d tr.output) d0

/-! Lemmas about the dict operations. -/

theorem get_set_self (d : Dict) (k : String) (v : Value) :
    Dict.get (Dict.set d k v) k = some v := by
  induction d with
  | nil => simp [Dict.set, Dict.get]
  | cons kv rest ih =>
      obtain ⟨k2, w⟩ := kv
      by_cases h : k2 = k
      · simp [Dict.set, Dict.get, h]
      · simp [Dict.set, Dict.get, h, ih]

theorem get_set_ne (d : Dict) (k k2 : String) (v : Value) (h : k2 ≠ k) :
    Dict.get (Dict.set d k v) k2 = Dict.get d k2 := by
  induction d with
  | nil => simp [Dict.set, Dict.get, Ne.symm h]
  | cons kv rest ih =>
      obtain ⟨k3, w⟩ := kv
      by_cases h3 : k3 = k
      · subst h3
        simp [Dict.set, Dict.get, Ne.symm h]
      · by_cases h2 : k3 = k2 <;> simp [Dict.set, Dict.get, h, h3, h2, ih]

theorem getLast_eq_none_iff (d : Dict) (k : String) :
    Dict.getLast d k = Option.none ↔ Dict.get d k = Option.none := by
  induction d with
  | nil => simp [Dict.getLast, Dict.get]
  | cons kv rest ih =>
      obtain ⟨k2, w⟩ := kv
      cases h : Dict.getLast rest k with
      | some u =>
          have : Dict.get rest k ≠ Option.none := by
            intro hc
            rw [ih.mpr hc] at h
            exact Option.noConfusion h
          by_cases h2 : k2 = k <;> simp [Dict.getLast, Dict.get, h, h2, this]
      | none =>
          by_cases h2 : k2 = k <;> simp [Dict.getLast, Dict.get, h, h2, ih.mp h]

theorem get_mergeOutput (out : Dict) : ∀ (d : Dict) (k : String),
    Dict.get (mergeOutput d out) k =
      match Dict.getLast out k with
      | some v => some v
      | Option.none => Dict.get d k := by
  induction out with
  | nil => intro d k; rfl
  | cons kv rest ih =>
      intro d k
      obtain ⟨k2, w⟩ := kv
      show Dict.get (mergeOutput (Dict.set d k2 w) rest) k = _
      rw [ih]
      cases h : Dict.getLast rest k with
      | some u => simp [Dict.getLast, h]
      | none =>
          by_cases h2 : k2 = k
          · subst h2
            simp [Dict.getLast, h, get_set_self]
          · simp [Dict.getLast, h, h2, get_set_ne d k2 k w (Ne.symm h2)]

theorem get_mergeOutput_of_absent (d out : Dict) (k : String)
    (h : Dict.get out k = Option.none) :
    Dict.get (mergeOutput d out) k = Dict.get d k := by
  rw [get_mergeOutput, (getLast_eq_none_iff out k).mpr h]

theorem get_mergeOutput_of_getLast (d out : Dict) (k : String) (v : Value)
    (h : Dict.getLast out k = some v) :
    Dict.get (mergeOutput d out) k = some v := by
  rw [get_mergeOutput, h]

theorem get_mergeOutput_ne_none_left (d out : Dict) (k : String)
    (h : Dict.get d k ≠ Option.none) :
    Dict.get (mergeOutput d out) k ≠ Option.none := by
  rw [get_mergeOutput]
  cases hl : Dict.getLast out k with
  | some u => simp
  | none => simpa using h

theorem get_mergeOutput_ne_none_right (d out : Dict) (k : String)
    (h : Dict.get out k ≠ Option.none) :
    Dict.get (mergeOutput d out) k ≠ Option.none := by
  rw [get_mergeOutput]
  cases hl : Dict.getLast out k with
  | some u => simp
  | none => exact absurd ((getLast_eq_none_iff out k).mp hl) h

/-! Lemmas about Step.run and runSteps. -/

theorem foldl_set_data (out : Dict) : ∀ c : Context,
    (out.foldl (fun c kv => Context.set c kv.1 kv.2) c).data = mergeOutput c.data out := by
  induction out with
  | nil => intro c; rfl
  | cons kv rest ih =>
      intro c
      rw [List.foldl_cons, ih (Context.set c kv.1 kv.2)]
      rfl

theorem foldl_set_traces (out : Dict) : ∀ c : Context,
    (out.foldl (fun c kv => Context.set c kv.1 kv.2) c).traces = c.traces := by
  induction out with
  | nil => intro c; rfl
  | cons kv rest ih =>
      intro c
      rw [List.foldl_cons, ih (Context.set c kv.1 kv.2)]
      rfl

theorem Step.run_ok (s : Step) (clock : Nat → PyFloat) (st : RunState)
    (res : Option Dict) (h : s.fn st.ctx.data = .ok res) :
    Step.run s clock st =
      (⟨⟨mergeOutput st.ctx.data (res.getD []),
         st.ctx.traces ++
           [⟨s.name, st.ctx.data, res.getD [], clock st.tick, clock (st.tick + 1)⟩]⟩,
        st.tick + 2⟩, Option.none) := by
  show (match s.fn st.ctx.data with
        | .ok res =>
            let output : Dict := res.getD []
            let ctx1 : Context :=
              output.foldl (fun (c : Context) (kv : String × Value) => Context.set c kv.1 kv.2) st.ctx
            let tr1 : Trace :=
              Trace.close { (⟨s.name, st.ctx.data, [], clock st.tick, ⟨0, 0⟩⟩ : Trace) with
                            output := output } (clock (st.tick + 1))
            ((⟨Context.add_trace ctx1 tr1, st.tick + 2⟩ : RunState), (Option.none : Option String))
        | .error e =>
            let tr1 : Trace :=
              Trace.close { (⟨s.name, st.ctx.data, [], clock st.tick, ⟨0, 0⟩⟩ : Trace) with
                            output := [("error", Value.str e)] } (clock (st.tick + 1))
            (⟨Context.add_trace st.ctx tr1, st.tick + 2⟩, some e)) = _
  rw [h]
  simp only [Context.add_trace, Trace.close]
  rw [Prod.mk.injEq]
  refine ⟨?_, rfl⟩
  rw [RunState.mk.injEq]
  refine ⟨?_, rfl⟩
  rw [Context.mk.injEq]
  exact ⟨foldl_set_data (res.getD []) st.ctx, by rw [foldl_set_traces (res.getD []) st.ctx]⟩

theorem Step.run_err (s : Step) (clock : Nat → PyFloat) (st : RunState)
    (e : String) (h : s.fn st.ctx.data = .error e) :
    Step.run s clock st =
      (⟨⟨st.ctx.data,
         st.ctx.traces ++
           [⟨s.name, st.ctx.data, [("error", Value.str e)], clock st.tick, clock (st.tick + 1)⟩]⟩,
        st.tick + 2⟩, some e) := by
  show (match s.fn st.ctx.data with
        | .ok res =>
            let output : Dict := res.getD []
            let ctx1 : Context :=
              output.foldl (fun (c : Context) (kv : String × Value) => Context.set c kv.1 kv.2) st.ctx
            let tr1 : Trace :=
              Trace.close { (⟨s.name, st.ctx.data, [], clock st.tick, ⟨0, 0⟩⟩ : Trace) with
                            output := output } (clock (st.tick + 1))
            ((⟨Context.add_trace ctx1 tr1, st.tick + 2⟩ : RunState), (Option.none : Option String))
        | .error e =>
            let tr1 : Trace :=
              Trace.close { (⟨s.name, st.ctx.data, [], clock st.tick, ⟨0, 0⟩⟩ : Trace) with
                            output := [("error", Value.str e)] } (clock (st.tick + 1))
            (⟨Context.add_trace st.ctx tr1, st.tick + 2⟩, some e)) = _
  rw [h]
  cases st with
  | mk ctx tick =>
      cases ctx with
      | mk d trs => rfl

theorem runSteps_cons_ok (clock : Nat → PyFloat) (s : Step) (rest : List Step)
    (st : RunState) (res : Option Dict) (h : s.fn st.ctx.data = .ok res) :
    runSteps clock (s :: rest) st =
      runSteps clock rest
        ⟨⟨mergeOutput st.ctx.data (res.getD []),
          st.ctx.traces ++
            [⟨s.name, st.ctx.data, res.getD [], clock st.tick, clock (st.tick + 1)⟩]⟩,
         st.tick + 2⟩ := by
  show (match Step.run s clock st with
        | (st1, Option.none) => runSteps clock rest st1
        | (st1, some e) => (st1, some e)) = _
  rw [Step.run_ok s clock st res h]

theorem runSteps_cons_err (clock : Nat → PyFloat) (s : Step) (rest : List Step)
    (st : RunState) (e : String) (h : s.fn st.ctx.data = .error e) :
    runSteps clock (s :: rest) st =
      (⟨⟨st.ctx.data,
         st.ctx.traces ++
           [⟨s.name, st.ctx.data, [("error", Value.str e)], clock st.tick, clock (st.tick + 1)⟩]⟩,
        st.tick + 2⟩, some e) := by
  show (match Step.run s clock st with
        | (st1, Option.none) => runSteps clock rest st1
        | (st1, some e) => (st1, some e)) = _
  rw [Step.run_err s clock st e h]

theorem runSteps_ok_length (steps : List Step) :
    ∀ (clock : Nat → PyFloat) (st : RunState) (r : RunState),
      runSteps clock steps st = (r, Option.none) →
      r.ctx.traces.length = st.ctx.traces.length + steps.length := by
  induction steps with
  | nil =>
      intro clock st r h
      injection h with h1 h2
      subst h1
      simp
  | cons s rest ih =>
      intro clock st r h
      cases hf : s.fn st.ctx.data with
      | ok res =>
          rw [runSteps_cons_ok clock s rest st res hf] at h
          have h2 := ih clock _ r h
          simp at h2 ⊢
          omega
      | error e =>
          rw [runSteps_cons_err clock s rest st e hf] at h
          injection h with h1 h2
          exact Option.noConfusion h2

theorem take_append_of_le {α : Type} (l₁ l₂ : List α) (n : Nat) (h : n ≤ l₁.length) :
    (l₁ ++ l₂).take n = l₁.take n := by
  rw [List.take_append_eq_append_take, Nat.sub_eq_zero_of_le h]
  simp

/-- Appending one trace whose input is the replay of the previous outputs
preserves the per-index input-snapshot property. -/
theorem snoc_trace_input (d0 : Dict) (trs : List Trace) (tr0 : Trace)
    (h0 : tr0.input = replayData d0 trs)
    (hprev : ∀ (n : Nat) (tr : Trace), trs[n]? = some tr →
      tr.input = replayData d0 (trs.take n)) :
    ∀ (n : Nat) (tr : Trace), (trs ++ [tr0])[n]? = some tr →
      tr.input = replayData d0 ((trs ++ [tr0]).take n) := by
  intro n tr h
  rcases Nat.lt_trichotomy n trs.length with hn | hn | hn
  · rw [List.getElem?_append_left hn] at h
    rw [take_append_of_le trs [tr0] n (Nat.le_of_lt hn)]
    exact hprev n tr h
  · subst hn
    rw [List.getElem?_concat_length] at h
    injection h with h
    subst h
    rw [List.take_left trs [tr0]]
    exact h0
  · rw [List.getElem?_eq_none (by simp; omega)] at h
    exact Option.noConfusion h

theorem replayData_concat (d0 : Dict) (trs : List Trace) (tr : Trace) :
    replayData d0 (trs ++ [tr]) = mergeOutput (replayData d0 trs) tr.output := by
  show (trs ++ [tr]).foldl (fun d tr => mergeOutput d tr.output) d0 = _
  rw [List.foldl_append]
  rfl

/-- Invariant carried through runSteps: every recorded trace holds as its
input the replay of the outputs recorded before it over the initial data. -/
theorem runSteps_trace_input (steps : List Step) :
    ∀ (clock : Nat → PyFloat) (st : RunState) (d0 : Dict),
      st.ctx.data = replayData d0 st.ctx.traces →
      (∀ (n : Nat) (tr : Trace), st.ctx.traces[n]? = some tr →
        tr.input = replayData d0 (st.ctx.traces.take n)) →
      ∀ (n : Nat) (tr : Trace),
        ((runSteps clock steps st).1.ctx.traces)[n]? = some tr →
        tr.input = replayData d0 (((runSteps clock steps st).1.ctx.traces).take n) := by
  induction steps with
  | nil => intro clock st d0 hdata hprev; exact hprev
  | cons s rest ih =>
      intro clock st d0 hdata hprev
      cases hf : s.fn st.ctx.data with
      | ok res =>
          rw [runSteps_cons_ok clock s rest st res hf]
          refine ih clock _ d0 ?_ ?_
          · show mergeOutput st.ctx.data (res.getD []) = _
            rw [replayData_concat, ← hdata]
          · exact snoc_trace_input d0 st.ctx.traces _ hdata hprev
      | error e =>
          rw [runSteps_cons_err clock s rest st e hf]
          exact snoc_trace_input d0 st.ctx.traces _ hdata hprev

theorem get_replayData_mono (trs : List Trace) :
    ∀ (d0 : Dict) (k : String), Dict.get d0 k ≠ Option.none →
      Dict.get (replayData d0 trs) k ≠ Option.none := by
  induction trs with
  | nil => intro d0 k h; exact h
  | cons t rest ih =>
      intro d0 k h
      exact ih (mergeOutput d0 t.output) k (get_mergeOutput_ne_none_left d0 t.output k h)

theorem get_replayData_of_mem (trs : List Trace) :
    ∀ (d0 : Dict) (tr2 : Trace), tr2 ∈ trs →
      ∀ k, Dict.get tr2.output k ≠ Option.none →
        Dict.get (replayData d0 trs) k ≠ Option.none := by
  induction trs with
  | nil => intro d0 tr2 h; exact absurd h (List.not_mem_nil tr2)
  | cons t rest ih =>
      intro d0 tr2 hmem k hk
      rcases List.mem_cons.mp hmem with h | h
      · subst h
        exact get_replayData_mono rest (mergeOutput d0 tr2.output) k
          (get_mergeOutput_ne_none_right d0 tr2.output k hk)
      · exact ih (mergeOutput d0 t.output) tr2 h k hk

theorem runSteps_timestamps (steps : List Step) :
    ∀ (clock : Nat → PyFloat) (st : RunState),
      (∀ i : Nat, (clock i).toRat ≤ (clock (i + 1)).toRat) →
      (∀ tr ∈ st.ctx.traces, tr.started_at.toRat ≤ tr.finished_at.toRat) →
      ∀ tr ∈ (runSteps clock steps st).1.ctx.traces,
        tr.started_at.toRat ≤ tr.finished_at.toRat := by
  induction steps with
  | nil => intro clock st hmono hprev; exact hprev
  | cons s rest ih =>
      intro clock st hmono hprev
      cases hf : s.fn st.ctx.data with
      | ok res =>
          rw [runSteps_cons_ok clock s rest st res hf]
          refine ih clock _ hmono ?_
          intro tr htr
          rcases List.mem_append.mp htr with h | h
          · exact hprev tr h
          · have h2 := List.mem_singleton.mp h
            subst h2
            exact hmono st.tick
      | error e =>
          rw [runSteps_cons_err clock s rest st e hf]
          intro tr htr
          rcases List.mem_append.mp htr with h | h
          · exact hprev tr h
          · have h2 := List.mem_singleton.mp h
            subst h2
            exact hmono st.tick

theorem except_bind_ok {α β : Type} (a : α) (f : α → Except String β) :
    (Bind.bind (Except.ok a) f : Except String β) = f a := rfl

/-! Concrete fixtures used by the witnesses. -/

def clock0 : Nat → PyFloat := fun _ => ⟨0, 0⟩

def stepBoom : Step := ⟨"boom", fun _ => .error "boom"⟩

def stepSetX : Step := ⟨"set_x", fun _ => .ok (some [("x", Value.int 1)])⟩

def stepSetY : Step := ⟨"set_y", fun _ => .ok (some [("y", Value.int 2)])⟩

def stepSetX7 : Step := ⟨"set_x7", fun _ => .ok (some [("x", Value.int 7)])⟩

def stepNoop : Step := ⟨"noop", fun _ => .ok Option.none⟩

/-! The claims. -/

/-- C1: if the first of two steps raises, the second is never invoked (the
run result does not depend on it), Orchestrator.run propagates the error,
and the context afterwards holds exactly one trace whose output maps
"error" to the stringified error. -/
theorem failure_short_circuits (A B : Step) (clock : Nat → PyFloat) (d0 : Dict)
    (tick : Nat) (e : String) (hA : A.fn d0 = .error e) :
    ((Orchestrator.mk [A, B]).run clock ⟨⟨d0, []⟩, tick⟩).2 = some e ∧
    (∀ B2 : Step, (Orchestrator.mk [A, B2]).run clock ⟨⟨d0, []⟩, tick⟩ =
      (Orchestrator.mk [A, B]).run clock ⟨⟨d0, []⟩, tick⟩) ∧
    ((Orchestrator.mk [A, B]).run clock ⟨⟨d0, []⟩, tick⟩).1.ctx.traces.length = 1 ∧
    ∃ tr : Trace,
      ((Orchestrator.mk [A, B]).run clock ⟨⟨d0, []⟩, tick⟩).1.ctx.traces = [tr] ∧
      Dict.get tr.output "error" = some (Value.str e) := by
  have hrun : ∀ B2 : Step, (Orchestrator.mk [A, B2]).run clock ⟨⟨d0, []⟩, tick⟩ =
      (⟨⟨d0, [⟨A.name, d0, [("error", Value.str e)], clock tick, clock (tick + 1)⟩]⟩,
        tick + 2⟩, some e) := by
    intro B2
    show runSteps clock [A, B2] ⟨⟨d0, []⟩, tick⟩ = _
    rw [runSteps_cons_err clock A [B2] ⟨⟨d0, []⟩, tick⟩ e hA]
    rfl
  refine ⟨by rw [hrun B], fun B2 => by rw [hrun B2, hrun B], by rw [hrun B]; rfl,
    ⟨A.name, d0, [("error", Value.str e)], clock tick, clock (tick + 1)⟩,
    by rw [hrun B], by rfl⟩

theorem failure_short_circuits_witness :
    ((Orchestrator.mk [stepBoom, stepSetX]).run clock0 ⟨⟨[], []⟩, 0⟩).2 = some "boom" ∧
    ((Orchestrator.mk [stepBoom, stepSetX]).run clock0 ⟨⟨[], []⟩, 0⟩).1.ctx.traces.length = 1 :=
  ⟨(failure_short_circuits stepBoom stepSetX clock0 [] 0 "boom" rfl).1,
   (failure_short_circuits stepBoom stepSetX clock0 [] 0 "boom" rfl).2.2.1⟩

/-- C3: a successful Step.run leaves every key outside the result mapping
of the wrapped function bound to its previous value. -/
theorem step_run_frame (s : Step) (clock : Nat → PyFloat) (st : RunState)
    (res : Option Dict) (k : String)
    (h : s.fn st.ctx.data = .ok res)
    (hk : Dict.get (res.getD []) k = Option.none) :
    Dict.get ((Step.run s clock st).1.ctx.data) k = Dict.get st.ctx.data k := by
  rw [Step.run_ok s clock st res h]
  exact get_mergeOutput_of_absent st.ctx.data (res.getD []) k hk

theorem step_run_frame_witness :
    Dict.get ((Step.run stepSetX clock0 ⟨⟨[("z", Value.int 9)], []⟩, 0⟩).1.ctx.data) "z"
      = Dict.get [("z", Value.int 9)] "z" :=
  step_run_frame stepSetX clock0 ⟨⟨[("z", Value.int 9)], []⟩, 0⟩
    (some [("x", Value.int 1)]) "z" rfl rfl

/-- C4: when both steps of [A, B] succeed, their outputs merge cumulatively
into Context.data, and on keys written by both, the value of B (the later
writer) wins. -/
theorem merge_cumulative_last_write_wins (A B : Step) (clock : Nat → PyFloat)
    (d0 : Dict) (tick : Nat) (outA outB : Dict)
    (hA : A.fn d0 = .ok (some outA))
    (hB : B.fn (mergeOutput d0 outA) = .ok (some outB)) :
    ((Orchestrator.mk [A, B]).run clock ⟨⟨d0, []⟩, tick⟩).2 = Option.none ∧
    ((Orchestrator.mk [A, B]).run clock ⟨⟨d0, []⟩, tick⟩).1.ctx.data =
      mergeOutput (mergeOutput d0 outA) outB ∧
    (∀ (k : String) (v : Value), Dict.getLast outB k = some v →
      Dict.get (((Orchestrator.mk [A, B]).run clock ⟨⟨d0, []⟩, tick⟩).1.ctx.data) k = some v) ∧
    (∀ (k : String) (v : Value), Dict.getLast outB k = Option.none →
      Dict.getLast outA k = some v →
      Dict.get (((Orchestrator.mk [A, B]).run clock ⟨⟨d0, []⟩, tick⟩).1.ctx.data) k = some v) := by
  have hrun : (Orchestrator.mk [A, B]).run clock ⟨⟨d0, []⟩, tick⟩ =
      (⟨⟨mergeOutput (mergeOutput d0 outA) outB,
         [⟨A.name, d0, outA, clock tick, clock (tick + 1)⟩,
          ⟨B.name, mergeOutput d0 outA, outB, clock (tick + 2), clock (tick + 2 + 1)⟩]⟩,
        tick + 2 + 2⟩, Option.none) := by
    show runSteps clock [A, B] ⟨⟨d0, []⟩, tick⟩ = _
    rw [runSteps_cons_ok clock A [B] ⟨⟨d0, []⟩, tick⟩ (some outA) hA]
    rw [runSteps_cons_ok clock B [] _ (some outB) hB]
    rfl
  refine ⟨by rw [hrun], by rw [hrun], ?_, ?_⟩
  · intro k v h
    rw [hrun]
    exact get_mergeOutput_of_getLast (mergeOutput d0 outA) outB k v h
  · intro k v h1 h2
    rw [hrun]
    show Dict.get (mergeOutput (mergeOutput d0 outA) outB) k = some v
    rw [get_mergeOutput_of_absent (mergeOutput d0 outA) outB k
          ((getLast_eq_none_iff outB k).mp h1)]
    exact get_mergeOutput_of_getLast d0 outA k v h2

theorem merge_cumulative_last_write_wins_witness :
    Dict.get (((Orchestrator.mk [stepSetX, stepSetY]).run clock0 ⟨⟨[], []⟩, 0⟩).1.ctx.data) "x"
      = some (Value.int 1) ∧
    Dict.get (((Orchestrator.mk [stepSetX, stepSetY]).run clock0 ⟨⟨[], []⟩, 0⟩).1.ctx.data) "y"
      = some (Value.int 2) ∧
    Dict.get (((Orchestrator.mk [stepSetX, stepSetX7]).run clock0 ⟨⟨[], []⟩, 0⟩).1.ctx.data) "x"
      = some (Value.int 7) :=
  ⟨(merge_cumulative_last_write_wins stepSetX stepSetY clock0 [] 0
      [("x", Value.int 1)] [("y", Value.int 2)] rfl rfl).2.2.2 "x" (Value.int 1) rfl rfl,
   (merge_cumulative_last_write_wins stepSetX stepSetY clock0 [] 0
      [("x", Value.int 1)] [("y", Value.int 2)] rfl rfl).2.2.1 "y" (Value.int 2) rfl,
   (merge_cumulative_last_write_wins stepSetX stepSetX7 clock0 [] 0
      [("x", Value.int 1)] [("x", Value.int 7)] rfl rfl).2.2.1 "x" (Value.int 7) rfl⟩

/-- C6: every Step.run invocation appends exactly one trace on either
path, and a fully successful Orchestrator.run of a fresh context leaves
one trace per step. -/
theorem one_trace_per_step :
    (∀ (s : Step) (clock : Nat → PyFloat) (st : RunState),
        ((Step.run s clock st).1.ctx.traces).length = st.ctx.traces.length + 1) ∧
    (∀ (steps : List Step) (clock : Nat → PyFloat) (tick : Nat) (d0 : Dict) (r : RunState),
        (Orchestrator.mk steps).run clock ⟨⟨d0, []⟩, tick⟩ = (r, Option.none) →
        r.ctx.traces.length = steps.length) := by
  constructor
  · intro s clock st
    cases hf : s.fn st.ctx.data with
    | ok res => rw [Step.run_ok s clock st res hf]; simp
    | error e => rw [Step.run_err s clock st e hf]; simp
  · intro steps clock tick d0 r h
    have h2 := runSteps_ok_length steps clock ⟨⟨d0, []⟩, tick⟩ r h
    simpa using h2

theorem one_trace_per_step_witness :
    ((Orchestrator.mk [stepSetX, stepSetY]).run clock0 ⟨⟨[], []⟩, 0⟩).1.ctx.traces.length = 2 :=
  one_trace_per_step.2 [stepSetX, stepSetY] clock0 0 []
    ((Orchestrator.mk [stepSetX, stepSetY]).run clock0 ⟨⟨[], []⟩, 0⟩).1 rfl

/-- C10: immediately after Context.set the key reads back the value under
any default, while all other keys and the trace list are untouched. -/
theorem set_get_roundtrip (c : Context) (k : String) (v dflt : Value) :
    Context.get (Context.set c k v) k dflt = v ∧
    (∀ k2 : String, k2 ≠ k →
      Dict.get (Context.set c k v).data k2 = Dict.get c.data k2) ∧
    (Context.set c k v).traces = c.traces := by
  refine ⟨?_, ?_, rfl⟩
  · show Dict.getD (Dict.set c.data k v) k dflt = v
    rw [Dict.getD, get_set_self]
    rfl
  · intro k2 h
    exact get_set_ne c.data k k2 v h

theorem set_get_roundtrip_witness :
    Context.get (Context.set ⟨[("a", Value.int 1)], []⟩ "b" (Value.int 2)) "b" Value.none
      = Value.int 2 ∧
    Dict.get (Context.set ⟨[("a", Value.int 1)], []⟩ "b" (Value.int 2)).data "a"
      = Dict.get [("a", Value.int 1)] "a" :=
  ⟨(set_get_roundtrip ⟨[("a", Value.int 1)], []⟩ "b" (Value.int 2) Value.none).1,
   (set_get_roundtrip ⟨[("a", Value.int 1)], []⟩ "b" (Value.int 2) Value.none).2.1 "a"
     (by decide)⟩

/-- C2: the default four-step workflow on a fresh empty Context terminates
successfully, with action_plan holding exactly the three enumerated
recommendation records (ids 1, 2, 3) and email_status equal to "sent",
for any clock and any current date. -/
theorem default_workflow_end_to_end (clock : Nat → PyFloat) (today : String) :
    ((build_default_workflow today).run clock ⟨⟨[], []⟩, 0⟩).2 = Option.none ∧
    Dict.get (((build_default_workflow today).run clock ⟨⟨[], []⟩, 0⟩).1.ctx.data) "action_plan" =
      some (Value.list
        [Value.dict [("id", Value.int 1),
            ("task", Value.str "Increase LinkedIn outreach toward Pharma decision-makers."),
            ("owner", Value.str "marketing"), ("due", Value.str "EOW")],
         Value.dict [("id", Value.int 2),
            ("task", Value.str "Repurpose top organic posts into short-form LinkedIn content."),
            ("owner", Value.str "marketing"), ("due", Value.str "EOW")],
         Value.dict [("id", Value.int 3),
            ("task", Value.str "Test two creative variations focused on clinical impact."),
            ("owner", Value.str "marketing"), ("due", Value.str "EOW")]]) ∧
    Dict.get (((build_default_workflow today).run clock ⟨⟨[], []⟩, 0⟩).1.ctx.data) "email_status" =
      some (Value.str "sent") :=
  ⟨rfl, rfl, rfl⟩

/-- C5 counterexample: Context.get can return a value equal to the
provided default although the key is present, namely whenever the stored
value equals the default; so "returns the default iff the key is absent"
fails at data = [("a", 0)], key "a", default 0. -/
theorem get_default_iff_absent_refuted :
    ¬ (∀ (c : Context) (k : String) (dflt : Value),
        (Context.get c k dflt = dflt ↔ Dict.get c.data k = Option.none)) := by
  intro h
  have h2 := (h ⟨[("a", Value.int 0)], []⟩ "a" (Value.int 0)).mp rfl
  exact Option.noConfusion h2

/-- C5 amended: Context.get never raises (it is total); it returns the
stored value when the key is present and the default when absent, so it
returns a value equal to the default exactly when the key is absent or
the stored value happens to equal the default. -/
theorem get_default_characterization (c : Context) (k : String) (dflt : Value) :
    (∀ v : Value, Dict.get c.data k = some v → Context.get c k dflt = v) ∧
    (Dict.get c.data k = Option.none → Context.get c k dflt = dflt) ∧
    (Context.get c k dflt = dflt ↔
      (Dict.get c.data k = Option.none ∨ Dict.get c.data k = some dflt)) := by
  simp only [Context.get, Dict.getD]
  cases h : Dict.get c.data k with
  | none => simp [h]
  | some v => simp [h]

theorem get_default_characterization_witness :
    Context.get ⟨[("a", Value.int 1)], []⟩ "a" Value.none = Value.int 1 :=
  (get_default_characterization ⟨[("a", Value.int 1)], []⟩ "a" Value.none).1
    (Value.int 1) rfl

/-- C7: every recorded trace of a run from a fresh context snapshots as
its input the data exactly as it stood before its step ran, i.e. the
initial data with all earlier outputs merged in order; in particular the
snapshot of trace n binds every key written by any earlier trace. -/
theorem trace_input_is_pre_step_data (steps : List Step) (clock : Nat → PyFloat)
    (tick : Nat) (d0 : Dict) (n : Nat) (tr : Trace)
    (h : (((Orchestrator.mk steps).run clock ⟨⟨d0, []⟩, tick⟩).1.ctx.traces)[n]? = some tr) :
    tr.input =
      replayData d0
        ((((Orchestrator.mk steps).run clock ⟨⟨d0, []⟩, tick⟩).1.ctx.traces).take n) ∧
    ∀ (m : Nat) (tr2 : Trace), m < n →
      (((Orchestrator.mk steps).run clock ⟨⟨d0, []⟩, tick⟩).1.ctx.traces)[m]? = some tr2 →
      ∀ k : String, Dict.get tr2.output k ≠ Option.none →
        Dict.get tr.input k ≠ Option.none := by
  have hmain := runSteps_trace_input steps clock ⟨⟨d0, []⟩, tick⟩ d0 rfl
    (by intro n tr h; simp at h)
  refine ⟨hmain n tr h, ?_⟩
  intro m tr2 hm h2 k hk
  rw [hmain n tr h]
  refine get_replayData_of_mem _ d0 tr2 ?_ k hk
  refine List.getElem?_mem (n := m) ?_
  rw [List.getElem?_take_of_lt hm]
  exact h2

theorem trace_input_is_pre_step_data_witness :
    (⟨"set_y", [("x", Value.int 1)], [("y", Value.int 2)], clock0 2, clock0 3⟩ : Trace).input
      = replayData []
          ((((Orchestrator.mk [stepSetX, stepSetY]).run clock0 ⟨⟨[], []⟩, 0⟩).1.ctx.traces).take 1) :=
  (trace_input_is_pre_step_data [stepSetX, stepSetY] clock0 0 [] 1
     ⟨"set_y", [("x", Value.int 1)], [("y", Value.int 2)], clock0 2, clock0 3⟩ rfl).1

/-- C8: under a monotone clock every trace of a run finishes no earlier
than it started, and the latency_ms entry of Trace.as_dict is exactly
round((finished_at - started_at) * 1000, 2). -/
theorem trace_timestamps_and_latency (steps : List Step) (clock : Nat → PyFloat)
    (tick : Nat) (d0 : Dict)
    (hmono : ∀ i : Nat, (clock i).toRat ≤ (clock (i + 1)).toRat) :
    ∀ tr ∈ (((Orchestrator.mk steps).run clock ⟨⟨d0, []⟩, tick⟩).1.ctx.traces),
      tr.started_at.toRat ≤ tr.finished_at.toRat ∧
      Dict.get (Trace.as_dict tr) "latency_ms" =
        some (Value.float
          (PyFloat.round2 (PyFloat.mulInt (PyFloat.sub tr.finished_at tr.started_at) 1000))) := by
  intro tr htr
  refine ⟨runSteps_timestamps steps clock ⟨⟨d0, []⟩, tick⟩ hmono ?_ tr htr, rfl⟩
  intro tr2 h
  exact absurd h (List.not_mem_nil tr2)

theorem trace_timestamps_and_latency_witness :
    (⟨"noop", [], [], clock0 0, clock0 1⟩ : Trace).started_at.toRat
        ≤ (⟨"noop", [], [], clock0 0, clock0 1⟩ : Trace).finished_at.toRat ∧
    Dict.get (Trace.as_dict ⟨"noop", [], [], clock0 0, clock0 1⟩) "latency_ms" =
      some (Value.float
        (PyFloat.round2 (PyFloat.mulInt (PyFloat.sub (clock0 1) (clock0 0)) 1000))) :=
  trace_timestamps_and_latency [stepNoop] clock0 0 []
    (fun i => le_refl ((clock0 i).toRat))
    ⟨"noop", [], [], clock0 0, clock0 1⟩
    (List.mem_singleton.mpr rfl)

/-- C9: whenever the context holds raw_metrics whose week_over_week dict
maps conv_rate to the float 0.14, mock_summarize_metrics succeeds and its
summary string contains the substring "14%". -/
theorem summarize_metrics_14_percent (data M W : Dict)
    (h1 : Dict.get data "raw_metrics" = some (Value.dict M))
    (h2 : Dict.get M "week_over_week" = some (Value.dict W))
    (h3 : Dict.get W "conv_rate" = some (Value.float ⟨14, 2⟩)) :
    ∃ (out : Dict) (s : String),
      mock_summarize_metrics data = .ok (some out) ∧
      Dict.get out "summary" = some (Value.str s) ∧
      ∃ a b : String, s = a ++ "14%" ++ b := by
  have hm : Dict.getD data "raw_metrics" (Value.dict []) = Value.dict M := by
    rw [Dict.getD, h1]; rfl
  have hw : Dict.getD M "week_over_week" (Value.dict []) = Value.dict W := by
    rw [Dict.getD, h2]; rfl
  have hc : Dict.getD W "conv_rate" (Value.int 0) = Value.float ⟨14, 2⟩ := by
    rw [Dict.getD, h3]; rfl
  have heq : mock_summarize_metrics data = .ok (some
      [("summary", Value.str ("Conversion rate rose 14" ++
          "% week-over-week. Organic and LinkedIn remain leading channels. " ++
          "Healthcare content continues to perform strongly.")),
       ("key_insight", Value.str "Organic content is driving higher-quality engagement."),
       ("recommendations", Value.list (recommendationStrings.map Value.str))]) := by
    simp only [mock_summarize_metrics]
    rw [hm]
    simp only [Value.mapGet, except_bind_ok]
    rw [hw]
    simp only [Value.mapGet, except_bind_ok]
    rw [hc]
    simp only [Value.mulInt, except_bind_ok, Value.toPyInt]
    rfl
  refine ⟨_, _, heq, rfl, "Conversion rate rose ",
    " week-over-week. Organic and LinkedIn remain leading channels. Healthcare content continues to perform strongly.",
    by rfl⟩

theorem summarize_metrics_14_percent_witness :
    ∃ (out : Dict) (s : String),
      mock_summarize_metrics [("raw_metrics", sampleMetrics)] = .ok (some out) ∧
      Dict.get out "summary" = some (Value.str s) ∧
      ∃ a b : String, s = a ++ "14%" ++ b :=
  summarize_metrics_14_percent [("raw_metrics", sampleMetrics)]
    [("week_over_week", Value.dict [("conv_rate", Value.float ⟨14, 2⟩), ("traffic", Value.float ⟨7, 2⟩)]),
     ("top_channels",
       Value.list
         [Value.dict [("name", Value.str "Organic"), ("conv", Value.float ⟨36, 3⟩)],
          Value.dict [("name", Value.str "LinkedIn"), ("conv", Value.float ⟨28, 3⟩)]]),
     ("notes", Value.str "Healthcare content gained traction among Pharma executives.")]
    [("conv_rate", Value.float ⟨14, 2⟩), ("traffic", Value.float ⟨7, 2⟩)]
    rfl rfl rfl

